import Mathlib

/-!
Shallow embedding of `FilePartitionStorage` from
`src/server/src/streaming/partitions/storage.rs` of the iggy message
streaming server.

File-system effects are represented by explicit inputs: every directory
entry carries the facts the code observes about it (whether companion
files exist, whether each fallible sub-operation succeeds, the bytes of a
file), and each definition mirrors the source's control flow over those
inputs.  Machine integers (`u32`/`u64`) are modelled as `Nat`; the code
under scrutiny performs no arithmetic that can overflow a `u64`.
-/

/-- Error kinds of `IggyError` that `storage.rs` constructs or propagates.
Payload order mirrors the call sites in the source. -/
inductive IggyError where
  | CannotReadPartitions
  | CannotReadConsumerOffsets (path : String)
  | CannotReadFile
  | CannotDeleteConsumerOffsetsDirectory (path : String)
  | CannotDeleteConsumerOffsetFile (path : String)
  | CannotDeletePartition (partition_id topic_id stream_id : Nat)
  | CannotDeletePartitionDirectory (partition_id stream_id topic_id : Nat)
  | CannotLoadSegment
  | CorruptedChecksum (offset : Nat)
deriving DecidableEq, Repr

/-- `iggy::consumer::ConsumerKind`. -/
inductive ConsumerKind where
  | consumer
  | consumer_group
deriving DecidableEq, Repr

/-- `ConsumerOffset` record (`streaming/partitions/partition.rs`): one file per
consumer, filename the decimal consumer id, contents the 8-byte LE offset. -/
structure ConsumerOffset where
  kind : ConsumerKind
  consumer_id : Nat
  offset : Nat
  path : String
deriving DecidableEq, Repr

/-- In-memory segment state as far as `FilePartitionStorage::load` reads and
writes it: identifiers and counters not used by the claims are omitted. -/
structure Segment where
  start_offset : Nat
  end_offset : Nat
  current_offset : Nat
  size_bytes : Nat
  is_closed : Bool
  /-- `unsaved_messages`: `some capacity` models
  `Some(BatchAccumulator::new(current_offset, capacity))`. -/
  unsaved_messages : Option Nat
deriving DecidableEq, Repr

/-- The configuration flags `FilePartitionStorage::load` consults. -/
structure Config where
  cache_indexes : Bool
  validate_checksum : Bool
  /-- `partition.message_deduplicator.is_some()`. -/
  deduplication_enabled : Bool
  messages_required_to_save : Nat
deriving DecidableEq, Repr

/-- The mutable partition state touched by `FilePartitionStorage::load`. -/
structure Partition where
  segments : List Segment
  should_increment_offset : Bool
  current_offset : Nat
  created_at : Nat
  segments_count_of_parent_stream : Nat
deriving DecidableEq, Repr

/-- A partition with no segments and all counters zero. -/
def emptyPartition : Partition :=
  { segments := []
    should_increment_offset := false
    current_offset := 0
    created_at := 0
    segments_count_of_parent_stream := 0 }

/-- What the loader observes about one `<start_offset>.log` file: the parsed
basename, what `Segment::load` would populate, whether the companion index /
legacy timeindex files exist, and the results of the fallible sub-operations
(`IndexRebuilder::rebuild`, `Segment::load`, `load_checksums`,
`load_message_ids`); `none` means success. -/
structure SegmentEntry where
  start_offset : Nat
  /-- `end_offset` as `Segment::create`/`Segment::load` leave it. -/
  end_offset0 : Nat
  current_offset : Nat
  size_bytes : Nat
  is_closed : Bool
  index_exists : Bool
  time_index_exists : Bool
  rebuild_ok : Bool
  load_err : Option IggyError
  checksum_err : Option IggyError
  message_ids_err : Option IggyError
deriving DecidableEq, Repr

/-- One entry of `fs::read_dir(partition_path)`:  the loop at lines 62-71
skips entries whose extension is not `log` and entries that are directories. -/
structure PartitionDirEntry where
  extension_is_log : Bool
  is_directory : Bool
  seg : SegmentEntry
deriving DecidableEq, Repr

/-- How processing of a single directory entry ends. -/
inductive EntryOutcome where
  | skipped
  | panicked
  | failed (e : IggyError)
  | loaded
deriving DecidableEq, Repr

/-- Observable side effects of one loop iteration: whether the index was
rebuilt (lines 109-129) and whether the legacy timeindex was removed
(lines 131-134). -/
structure StepInfo where
  rebuilt : Bool
  deleted_time_index : Bool
deriving DecidableEq, Repr

/-- Result of one iteration of the segment-loading loop. -/
structure EntryStep where
  outcome : EntryOutcome
  info : StepInfo
  part : Partition
deriving DecidableEq, Repr

/-- The segment value pushed by a successful iteration (lines 80-145):
fields populated from disk by `Segment::load`, plus the batch accumulator
attached to open segments with capacity `messages_required_to_save`. -/
def segOfEntry (cfg : Config) (e : SegmentEntry) : Segment :=
  { start_offset := e.start_offset
    end_offset := e.end_offset0
    current_offset := e.current_offset
    size_bytes := e.size_bytes
    is_closed := e.is_closed
    unsaved_messages := if e.is_closed then none else some cfg.messages_required_to_save }

/-- One iteration of the `while let Some(dir_entry)` loop of
`FilePartitionStorage::load` (storage.rs lines 62-184), translated branch by
branch:
1. skip non-`log` extensions and directories;
2. rebuild the index iff the cache is enabled and (the index is missing or a
   legacy timeindex exists); a rebuild failure panics (lines 117-123), so the
   legacy-file deletion at line 132 is not reached;
3. delete the legacy timeindex if present;
4. `segment.load()?`;
5. attach a batch accumulator to open segments;
6. raise `should_increment_offset` if the segment has bytes;
7. `load_checksums()?` when checksum validation is on;
8. `load_message_ids()?` when deduplication is on;
9. bump the parent stream's segment counter and push the segment. -/
def loadSegmentEntry (cfg : Config) (d : PartitionDirEntry) (p : Partition) : EntryStep :=
  if !d.extension_is_log then ⟨.skipped, ⟨false, false⟩, p⟩
  else if d.is_directory then ⟨.skipped, ⟨false, false⟩, p⟩
  else
    let e := d.seg
    let rebuild := cfg.cache_indexes && (!e.index_exists || e.time_index_exists)
    if rebuild && !e.rebuild_ok then ⟨.panicked, ⟨true, false⟩, p⟩
    else
      let info : StepInfo := ⟨rebuild, e.time_index_exists⟩
      match e.load_err with
      | some err => ⟨.failed err, info, p⟩
      | none =>
        let p1 := if !p.should_increment_offset
                  then { p with should_increment_offset := decide (0 < e.size_bytes) }
                  else p
        match (if cfg.validate_checksum then e.checksum_err else none) with
        | some err => ⟨.failed err, info, p1⟩
        | none =>
          match (if cfg.deduplication_enabled then e.message_ids_err else none) with
          | some err => ⟨.failed err, info, p1⟩
          | none =>
            ⟨.loaded, info,
              { p1 with
                  segments := p1.segments ++ [segOfEntry cfg e]
                  segments_count_of_parent_stream :=
                    p1.segments_count_of_parent_stream + 1 }⟩

/-- The outcome of an iteration does not depend on the partition state, so it
can be classified from the configuration and the entry alone. -/
def classifyEntry (cfg : Config) (d : PartitionDirEntry) : EntryOutcome :=
  (loadSegmentEntry cfg d emptyPartition).outcome

/-- Result of `FilePartitionStorage::load`: a panic (from the index
rebuilder), a typed error together with the partition state left behind, or
success. -/
inductive LoadResult where
  | panicked
  | failed (e : IggyError) (p : Partition)
  | ok (p : Partition)
deriving DecidableEq, Repr

/-- The error of a `LoadResult`, if it is a typed error. -/
def LoadResult.errorOf : LoadResult → Option IggyError
  | .panicked => none
  | .failed e _ => some e
  | .ok _ => none

/-- The partition state a `LoadResult` leaves behind (panic leaves none). -/
def LoadResult.partOrEmpty : LoadResult → Partition
  | .panicked => emptyPartition
  | .failed _ p => p
  | .ok p => p

/-- The segment-loading loop of `FilePartitionStorage::load` (lines 62-184):
a failed iteration returns the error at once, keeping the state mutated so
far; a panic aborts everything. -/
def loadLoop (cfg : Config) : List PartitionDirEntry → Partition → LoadResult
  | [], p => .ok p
  | d :: rest, p =>
    let st := loadSegmentEntry cfg d p
    match st.outcome with
    | .skipped => loadLoop cfg rest st.part
    | .loaded => loadLoop cfg rest st.part
    | .panicked => .panicked
    | .failed e => .failed e st.part

/-- Comparator of the `sort_by` at lines 186-188. -/
def segLE (a b : Segment) : Prop := a.start_offset ≤ b.start_offset

instance : DecidableRel segLE := fun a b =>
  inferInstanceAs (Decidable (a.start_offset ≤ b.start_offset))

instance : IsTotal Segment segLE := ⟨fun a b => Nat.le_total _ _⟩

instance : IsTrans Segment segLE := ⟨fun _ _ _ => Nat.le_trans⟩

/-- Lines 190-204: for every non-terminal segment, set its `end_offset` to
the following segment's `start_offset - 1` (the last segment is skipped by
the `break`). -/
def fixEndOffsets : List Segment → List Segment
  | [] => []
  | [s] => [s]
  | s :: t :: rest =>
    { s with end_offset := t.start_offset - 1 } :: fixEndOffsets (t :: rest)

/-- Lines 206-211: if the last segment is closed, set its `end_offset` to its
`current_offset`. -/
def updateLastSegment : List Segment → List Segment
  | [] => []
  | [s] => [if s.is_closed then { s with end_offset := s.current_offset } else s]
  | s :: t :: rest => s :: updateLastSegment (t :: rest)

/-- `FilePartitionStorage::load` (storage.rs lines 34-227).  `dir_read_ok`
models whether `fs::read_dir(partition_path)` succeeds;
`consumer_offsets_result` models the outcome of the final
`partition.load_consumer_offsets()` call (`none` = success). -/
def FilePartitionStorage.load (cfg : Config) (dir_read_ok : Bool)
    (entries : List PartitionDirEntry) (consumer_offsets_result : Option IggyError)
    (state_created_at : Nat) (p : Partition) : LoadResult :=
  let p := { p with created_at := state_created_at }
  if !dir_read_ok then .failed .CannotReadPartitions p
  else
    match loadLoop cfg entries p with
    | .panicked => .panicked
    | .failed e q => .failed e q
    | .ok q =>
      let segs := List.insertionSort segLE q.segments
      let segs := fixEndOffsets segs
      let segs := updateLastSegment segs
      let q := { q with
                   segments := segs
                   current_offset :=
                     match segs.getLast? with
                     | some s => s.current_offset
                     | none => q.current_offset }
      match consumer_offsets_result with
      | some e => .failed e q
      | none => .ok q

/-- `FilePartitionStorage::delete_consumer_offsets` (lines 427-440): an absent
directory is not an error; a failing `remove_dir_all` yields
`CannotDeleteConsumerOffsetsDirectory(path)`. -/
def FilePartitionStorage.deleteConsumerOffsets (path : String)
    (dir_exists remove_ok : Bool) : Except IggyError Unit :=
  if !dir_exists then .ok ()
  else if !remove_ok then .error (.CannotDeleteConsumerOffsetsDirectory path)
  else .ok ()

/-- `FilePartitionStorage::delete_consumer_offset` (lines 442-453): an absent
file is not an error; a failing `remove_file` yields
`CannotDeleteConsumerOffsetFile(path)`. -/
def FilePartitionStorage.deleteConsumerOffset (path : String)
    (file_exists remove_ok : Bool) : Except IggyError Unit :=
  if !file_exists then .ok ()
  else if !remove_ok then .error (.CannotDeleteConsumerOffsetFile path)
  else .ok ()

/-- `FilePartitionStorage::delete` (lines 299-342): delete the
consumer-offsets directory, then the consumer-group-offsets directory (each
failure mapped to `CannotDeletePartition(partition_id, topic_id, stream_id)`),
then `remove_dir_all(partition_path)` (failure:
`CannotDeletePartitionDirectory(partition_id, stream_id, topic_id)`). -/
def FilePartitionStorage.delete (partition_id topic_id stream_id : Nat)
    (consumer_offsets_path consumer_group_offsets_path : String)
    (co_exists co_remove_ok g_exists g_remove_ok partition_dir_remove_ok : Bool) :
    Except IggyError Unit :=
  match FilePartitionStorage.deleteConsumerOffsets consumer_offsets_path
      co_exists co_remove_ok with
  | .error _ => .error (.CannotDeletePartition partition_id topic_id stream_id)
  | .ok _ =>
    match FilePartitionStorage.deleteConsumerOffsets consumer_group_offsets_path
        g_exists g_remove_ok with
    | .error _ => .error (.CannotDeletePartition partition_id topic_id stream_id)
    | .ok _ =>
      if !partition_dir_remove_ok then
        .error (.CannotDeletePartitionDirectory partition_id stream_id topic_id)
      else .ok ()

def cfgCacheOn : Config := ⟨true, false, false, 16⟩

def cfgPlain : Config := ⟨false, false, false, 16⟩

def dirEntryBothIdx : PartitionDirEntry :=
  ⟨true, false, ⟨0, 0, 0, 0, false, true, true, true, none, none, none⟩⟩

def dirEntryNoIdxRebuildFails : PartitionDirEntry :=
  ⟨true, false, ⟨0, 0, 0, 0, false, false, false, false, none, none, none⟩⟩

def dirEntryW2 : PartitionDirEntry :=
  ⟨true, false, ⟨0, 0, 0, 0, false, false, false, true, none, none, none⟩⟩

def dirEntryClosed0 : PartitionDirEntry :=
  ⟨true, false, ⟨0, 0, 4, 7, true, true, false, true, none, none, none⟩⟩

def dirEntryClosed5 : PartitionDirEntry :=
  ⟨true, false, ⟨5, 0, 9, 10, true, true, false, true, none, none, none⟩⟩

def dirEntryLoadFails : PartitionDirEntry :=
  ⟨true, false, ⟨10, 0, 10, 0, false, true, false, true, some .CannotLoadSegment, none, none⟩⟩

/-- What `load_consumer_offsets` observes about one entry of
`fs::read_dir(path)` (lines 375-421): metadata result, directory flag, the
file name, whether `path.to_str()` yields a string, the path, whether
`file::open` succeeds, and the file's bytes. -/
structure OffsetDirEntry where
  meta_ok : Bool
  is_dir : Bool
  name : String
  path_valid : Bool
  path : String
  open_ok : Bool
  content : List Nat
deriving DecidableEq, Repr

def charDigit (c : Char) : Option Nat :=
  if '0' ≤ c ∧ c ≤ '9' then some (c.toNat - '0'.toNat) else none

def digitsVal (cs : List Char) : Option Nat :=
  cs.foldl (fun acc c =>
    match acc, charDigit c with
    | some v, some d => some (v * 10 + d)
    | _, _ => none) (some 0)

/-- Rust's `str::parse::<u32>`: an optional leading plus sign, then one or
more ASCII digits, value below 2^32. -/
def parseU32 (s : String) : Option Nat :=
  let cs := s.toList
  let cs := match cs with
            | '+' :: rest => rest
            | _ => cs
  if cs.isEmpty then none
  else
    match digitsVal cs with
    | some v => if v < 2 ^ 32 then some v else none
    | none => none

/-- The value `read_u64_le` assembles from the first 8 bytes. -/
def leU64 (bytes : List Nat) : Nat :=
  ((List.range 8).map (fun i => bytes.getD i 0 % 256 * 256 ^ i)).sum

/-- `tokio::io::AsyncReadExt::read_u64_le`: fails when fewer than 8 bytes are
available. -/
def readU64LE (bytes : List Nat) : Option Nat :=
  if bytes.length < 8 then none else some (leU64 bytes)

/-- Comparator of the `sort_by` at line 423. -/
def coLE (a b : ConsumerOffset) : Prop := a.consumer_id ≤ b.consumer_id

instance : DecidableRel coLE := fun a b =>
  inferInstanceAs (Decidable (a.consumer_id ≤ b.consumer_id))

instance : IsTotal ConsumerOffset coLE := ⟨fun a b => Nat.le_total _ _⟩

instance : IsTrans ConsumerOffset coLE := ⟨fun _ _ _ => Nat.le_trans⟩

/-- The `while let Some(dir_entry)` loop of
`FilePartitionStorage::load_consumer_offsets` (lines 375-424), translated
branch by branch: a metadata error breaks out of the loop (the offsets read
so far are still sorted and returned); directories, names that do not parse
as `u32`, and non-UTF-8 paths are skipped; a failing `file::open` or a short
read aborts with `CannotReadFile`. -/
def loadConsumerOffsetsLoop (kind : ConsumerKind) :
    List OffsetDirEntry → List ConsumerOffset → Except IggyError (List ConsumerOffset)
  | [], acc => .ok (List.insertionSort coLE acc)
  | e :: rest, acc =>
    if !e.meta_ok then .ok (List.insertionSort coLE acc)
    else if e.is_dir then loadConsumerOffsetsLoop kind rest acc
    else
      match parseU32 e.name with
      | none => loadConsumerOffsetsLoop kind rest acc
      | some cid =>
        if !e.path_valid then loadConsumerOffsetsLoop kind rest acc
        else if !e.open_ok then .error .CannotReadFile
        else
          match readU64LE e.content with
          | none => .error .CannotReadFile
          | some off => loadConsumerOffsetsLoop kind rest (acc ++ [⟨kind, cid, off, e.path⟩])

/-- `FilePartitionStorage::load_consumer_offsets` (lines 362-425):
`dir_read_ok` models whether `fs::read_dir(path)` succeeds. -/
def FilePartitionStorage.loadConsumerOffsets (kind : ConsumerKind) (dir_read_ok : Bool)
    (dir_path : String) (entries : List OffsetDirEntry) :
    Except IggyError (List ConsumerOffset) :=
  if !dir_read_ok then .error (.CannotReadConsumerOffsets dir_path)
  else loadConsumerOffsetsLoop kind entries []

/-- The records the spec says `load_consumer_offsets` collects: one per entry
whose name parses as a `u32`, carrying the little-endian `u64` read from the
file's first 8 bytes. -/
def specCollectOffsets (kind : ConsumerKind) (entries : List OffsetDirEntry) :
    List ConsumerOffset :=
  entries.filterMap (fun e =>
    (parseU32 e.name).bind (fun cid =>
      (readU64LE e.content).map (fun off => ⟨kind, cid, off, e.path⟩)))

def coEntryGood7 : OffsetDirEntry :=
  ⟨true, false, "7", true, "offsets/consumer/7", true, [42, 0, 0, 0, 0, 0, 0, 0]⟩

def coEntryBadName : OffsetDirEntry :=
  ⟨true, false, "tmp", true, "offsets/consumer/tmp", true, []⟩

def coEntryGood3 : OffsetDirEntry :=
  ⟨true, false, "3", true, "offsets/consumer/3", true, [5, 1, 0, 0, 0, 0, 0, 0]⟩

def coEntryUnreadable : OffsetDirEntry :=
  ⟨true, false, "1", true, "offsets/consumer/1", false, []⟩

/-- The outcome of one loop iteration does not depend on the partition
state. -/
theorem loadSegmentEntry_outcome (cfg : Config) (d : PartitionDirEntry) (p : Partition) :
    (loadSegmentEntry cfg d p).outcome = classifyEntry cfg d := by
  simp only [classifyEntry, loadSegmentEntry]
  cases hA : d.extension_is_log <;>
    cases hB : d.is_directory <;>
      simp_all <;>
      cases hC : (cfg.cache_indexes && (!d.seg.index_exists || d.seg.time_index_exists)) && !d.seg.rebuild_ok <;>
        simp_all <;>
        cases hD : d.seg.load_err <;> simp_all <;>
        cases hE : (if cfg.validate_checksum then d.seg.checksum_err else none) <;> simp_all <;>
        cases hF : (if cfg.deduplication_enabled then d.seg.message_ids_err else none) <;> simp_all <;>
        first
        | rfl
        | (split <;> rfl)

/-- A skipped entry (wrong extension or a directory) leaves the partition
untouched. -/
theorem loadSegmentEntry_skipped (cfg : Config) (d : PartitionDirEntry) (p : Partition)
    (h : classifyEntry cfg d = .skipped) :
    loadSegmentEntry cfg d p = ⟨.skipped, ⟨false, false⟩, p⟩ := by
  simp only [classifyEntry, loadSegmentEntry] at h ⊢
  cases hA : d.extension_is_log <;>
    cases hB : d.is_directory <;>
      (try simp_all) <;>
      cases hC : (cfg.cache_indexes && (!d.seg.index_exists || d.seg.time_index_exists)) && !d.seg.rebuild_ok <;>
        (try simp_all) <;>
        cases hD : d.seg.load_err <;> (try simp_all) <;>
        cases hE : (if cfg.validate_checksum then d.seg.checksum_err else none) <;> (try simp_all) <;>
        cases hF : (if cfg.deduplication_enabled then d.seg.message_ids_err else none) <;> (try simp_all)
  all_goals (try (split at h <;> try simp_all))
  all_goals (try (split <;> try simp_all))
  all_goals (try simp_all)
  all_goals (try rfl)

/-- A failing iteration propagates the error and leaves the segment list,
the parent-stream counter, `current_offset` and `created_at` untouched (only
`should_increment_offset` may already have been raised). -/
theorem loadSegmentEntry_failed (cfg : Config) (d : PartitionDirEntry) (p : Partition)
    (err : IggyError) (h : classifyEntry cfg d = .failed err) :
    (loadSegmentEntry cfg d p).outcome = .failed err
    ∧ (loadSegmentEntry cfg d p).part.segments = p.segments
    ∧ (loadSegmentEntry cfg d p).part.segments_count_of_parent_stream
        = p.segments_count_of_parent_stream
    ∧ (loadSegmentEntry cfg d p).part.current_offset = p.current_offset
    ∧ (loadSegmentEntry cfg d p).part.created_at = p.created_at := by
  simp only [classifyEntry, loadSegmentEntry] at h ⊢
  cases hA : d.extension_is_log <;>
    cases hB : d.is_directory <;>
      (try simp_all) <;>
      cases hC : (cfg.cache_indexes && (!d.seg.index_exists || d.seg.time_index_exists)) && !d.seg.rebuild_ok <;>
        (try simp_all) <;>
        cases hD : d.seg.load_err <;> (try simp_all) <;>
        cases hE : (if cfg.validate_checksum then d.seg.checksum_err else none) <;> (try simp_all) <;>
        cases hF : (if cfg.deduplication_enabled then d.seg.message_ids_err else none) <;> (try simp_all)
  all_goals (try (cases hP : p.should_increment_offset <;> try simp_all))
  all_goals (try (split at h <;> try simp_all))
  all_goals (try (split <;> try simp_all))
  all_goals (try simp_all)
  all_goals (try rfl)

/-- A successful iteration pushes exactly the segment described by the entry,
bumps the parent-stream segment counter by one, and ORs
`should_increment_offset` with `size_bytes > 0`. -/
theorem loadSegmentEntry_loaded (cfg : Config) (d : PartitionDirEntry) (p : Partition)
    (h : classifyEntry cfg d = .loaded) :
    loadSegmentEntry cfg d p =
      ⟨.loaded,
       ⟨cfg.cache_indexes && (!d.seg.index_exists || d.seg.time_index_exists),
        d.seg.time_index_exists⟩,
       { p with
           segments := p.segments ++ [segOfEntry cfg d.seg]
           segments_count_of_parent_stream := p.segments_count_of_parent_stream + 1
           should_increment_offset :=
             p.should_increment_offset || decide (0 < d.seg.size_bytes) }⟩ := by
  obtain ⟨ps, pf, pc, pca, pn⟩ := p
  simp only [classifyEntry, loadSegmentEntry] at h ⊢
  cases hA : d.extension_is_log <;>
    cases hB : d.is_directory <;>
      (try simp_all) <;>
      cases hC : (cfg.cache_indexes && (!d.seg.index_exists || d.seg.time_index_exists)) && !d.seg.rebuild_ok <;>
        (try simp_all) <;>
        cases hD : d.seg.load_err <;> (try simp_all) <;>
        cases hE : (if cfg.validate_checksum then d.seg.checksum_err else none) <;> (try simp_all) <;>
        cases hF : (if cfg.deduplication_enabled then d.seg.message_ids_err else none) <;> (try simp_all)
  all_goals (try (cases pf <;> try simp_all))
  all_goals (try (split at h <;> try simp_all))
  all_goals (try (split <;> try simp_all))
  all_goals (try simp_all)
  all_goals (try rfl)

/-- Invariant of a successful run of the segment-loading loop: it appends a
block of new segments, ORs the flag with their non-emptiness, adds their
count to the parent-stream counter, and the new start offsets form a
subsequence of the entries' start offsets. -/
theorem loadLoop_ok_inv (cfg : Config) :
    ∀ (entries : List PartitionDirEntry) (p p' : Partition),
      loadLoop cfg entries p = .ok p' →
      ∃ new : List Segment,
        p'.segments = p.segments ++ new
        ∧ p'.should_increment_offset
            = (p.should_increment_offset || new.any (fun s => decide (0 < s.size_bytes)))
        ∧ p'.segments_count_of_parent_stream
            = p.segments_count_of_parent_stream + new.length
        ∧ List.Sublist (new.map Segment.start_offset) (entries.map (fun d => d.seg.start_offset))
        ∧ p'.current_offset = p.current_offset
        ∧ p'.created_at = p.created_at := by
  intro entries
  induction entries with
  | nil =>
    intro p p' h
    simp only [loadLoop] at h
    cases h
    exact ⟨[], by simp⟩
  | cons d rest ih =>
    intro p p' h
    simp only [loadLoop] at h
    rcases hcl : classifyEntry cfg d with _ | _ | e | _
    · rw [loadSegmentEntry_skipped cfg d p hcl] at h
      simp only at h
      obtain ⟨new, h1, h2, h3, h4, h5, h6⟩ := ih p p' h
      exact ⟨new, h1, h2, h3, h4.cons d.seg.start_offset, h5, h6⟩
    · rw [loadSegmentEntry_outcome cfg d p, hcl] at h
      simp at h
    · rw [loadSegmentEntry_outcome cfg d p, hcl] at h
      simp at h
    · rw [loadSegmentEntry_loaded cfg d p hcl] at h
      simp only at h
      obtain ⟨new, h1, h2, h3, h4, h5, h6⟩ := ih _ p' h
      refine ⟨segOfEntry cfg d.seg :: new, ?_, ?_, ?_, ?_, h5, h6⟩
      · simpa [List.append_assoc] using h1
      · simpa [segOfEntry, Bool.or_assoc] using h2
      · simp only [h3]
        simp [List.length_cons]
        omega
      · simpa [segOfEntry] using h4.cons₂ d.seg.start_offset

/-- When every entry of `good` loads and `bad` fails, the loop stops at `bad`
with its error, keeping the segments and counter increments of `good`. -/
theorem loadLoop_fail (cfg : Config) :
    ∀ (good : List PartitionDirEntry) (bad : PartitionDirEntry)
      (rest : List PartitionDirEntry) (p : Partition) (err : IggyError),
      (∀ d ∈ good, classifyEntry cfg d = .loaded) →
      classifyEntry cfg bad = .failed err →
      ∃ q, loadLoop cfg (good ++ bad :: rest) p = .failed err q
        ∧ q.segments = p.segments ++ good.map (fun d => segOfEntry cfg d.seg)
        ∧ q.segments_count_of_parent_stream
            = p.segments_count_of_parent_stream + good.length := by
  intro good
  induction good with
  | nil =>
    intro bad rest p err _ hb
    simp only [List.nil_append, loadLoop]
    obtain ⟨h1, h2, h3, _, _⟩ := loadSegmentEntry_failed cfg bad p err hb
    rw [h1]
    exact ⟨(loadSegmentEntry cfg bad p).part, rfl, by simp [h2], by simp [h3]⟩
  | cons d good ih =>
    intro bad rest p err hg hb
    simp only [List.cons_append, loadLoop]
    rw [loadSegmentEntry_loaded cfg d p (hg d (by simp))]
    simp only
    obtain ⟨q, h1, h2, h3⟩ := ih bad rest _ err (fun x hx => hg x (by simp [hx])) hb
    refine ⟨q, h1, ?_, ?_⟩
    · simpa [List.append_assoc] using h2
    · simp only [h3]
      simp
      omega

/-- Head shape of `fixEndOffsets`: the head keeps its start offset. -/
theorem fixEndOffsets_cons_shape (t : Segment) (r : List Segment) :
    ∃ b m, fixEndOffsets (t :: r) = b :: m ∧ b.start_offset = t.start_offset := by
  cases r with
  | nil => exact ⟨t, [], rfl, rfl⟩
  | cons u r' => exact ⟨{ t with end_offset := u.start_offset - 1 }, _, rfl, rfl⟩

/-- Head shape of `updateLastSegment`: the head keeps its start offset. -/
theorem updateLastSegment_cons_shape (b : Segment) (m : List Segment) :
    ∃ c m', updateLastSegment (b :: m) = c :: m' ∧ c.start_offset = b.start_offset := by
  cases m with
  | nil =>
    refine ⟨if b.is_closed then { b with end_offset := b.current_offset } else b, [], rfl, ?_⟩
    split <;> rfl
  | cons u m' => exact ⟨b, updateLastSegment (u :: m'), rfl, rfl⟩

/-- On a list strictly sorted by start offset, the end-offset fixup makes
every consecutive pair satisfy `end_offset + 1 = start_offset`. -/
theorem chain_fixEndOffsets (l : List Segment)
    (h : List.Chain' (fun a b => a.start_offset < b.start_offset) l) :
    List.Chain' (fun a b => a.end_offset + 1 = b.start_offset)
      (updateLastSegment (fixEndOffsets l)) := by
  induction l with
  | nil => simp [fixEndOffsets, updateLastSegment]
  | cons s l ih =>
    cases l with
    | nil => simp [fixEndOffsets, updateLastSegment]
    | cons t r =>
      obtain ⟨hst, h'⟩ := List.chain'_cons.mp h
      obtain ⟨b, m, hb, hbs⟩ := fixEndOffsets_cons_shape t r
      obtain ⟨c, m', hc, hcs⟩ := updateLastSegment_cons_shape b m
      have hfix : fixEndOffsets (s :: t :: r)
          = { s with end_offset := t.start_offset - 1 } :: fixEndOffsets (t :: r) := rfl
      rw [hfix, hb, show updateLastSegment ({ s with end_offset := t.start_offset - 1 } :: b :: m)
            = { s with end_offset := t.start_offset - 1 } :: updateLastSegment (b :: m) from rfl,
          hc]
      refine List.chain'_cons.mpr ⟨?_, ?_⟩
      · simp only [hcs, hbs]
        omega
      · have := ih h'
        rw [hb, hc] at this
        exact this

/-- The end-offset fixup leaves every `size_bytes` unchanged. -/
theorem map_size_fixEndOffsets (l : List Segment) :
    (fixEndOffsets l).map Segment.size_bytes = l.map Segment.size_bytes := by
  induction l with
  | nil => rfl
  | cons s l ih =>
    cases l with
    | nil => rfl
    | cons t r =>
      simpa [fixEndOffsets] using ih

/-- The last-segment update leaves every `size_bytes` unchanged. -/
theorem map_size_updateLastSegment (l : List Segment) :
    (updateLastSegment l).map Segment.size_bytes = l.map Segment.size_bytes := by
  induction l with
  | nil => rfl
  | cons s l ih =>
    cases l with
    | nil => simp [updateLastSegment]; split <;> rfl
    | cons t r => simpa [updateLastSegment] using ih

/-- Sorted by start offset plus distinct start offsets gives strict
sortedness. -/
theorem pairwise_lt_of_sorted_nodup :
    ∀ (l : List Segment), l.Pairwise segLE → (l.map Segment.start_offset).Nodup →
      l.Pairwise (fun a b => a.start_offset < b.start_offset) := by
  intro l
  induction l with
  | nil => simp
  | cons s l ih =>
    intro hs hn
    rw [List.pairwise_cons] at hs ⊢
    rw [List.map_cons, List.nodup_cons] at hn
    refine ⟨?_, ih hs.2 hn.2⟩
    intro b hb
    have hle : s.start_offset ≤ b.start_offset := hs.1 b hb
    have hne : s.start_offset ≠ b.start_offset := by
      intro he
      exact hn.1 (he ▸ List.mem_map_of_mem Segment.start_offset hb)
    omega

/-- Rephrase a `size_bytes` emptiness scan through the mapped list. -/
theorem any_pos_of_map_size (l : List Segment) :
    l.any (fun s => decide (0 < s.size_bytes))
      = (l.map Segment.size_bytes).any (fun x => decide (0 < x)) := by
  induction l with
  | nil => rfl
  | cons s l ih => simp [ih]

/-- Permutations preserve `List.any`. -/
theorem any_eq_of_perm (l₁ l₂ : List Nat) (h : List.Perm l₁ l₂) (f : Nat → Bool) :
    l₁.any f = l₂.any f := by
  induction h with
  | nil => rfl
  | cons x h ih => simp [ih]
  | swap x y l => simp [Bool.or_left_comm]
  | trans h₁ h₂ ih₁ ih₂ => rw [ih₁, ih₂]

/-- For a log-file entry, the rebuild flag of one iteration equals the
condition at storage.rs line 109. -/
theorem loadSegmentEntry_rebuilt (cfg : Config) (d : PartitionDirEntry) (p : Partition)
    (h1 : d.extension_is_log = true) (h2 : d.is_directory = false) :
    (loadSegmentEntry cfg d p).info.rebuilt
      = (cfg.cache_indexes && (!d.seg.index_exists || d.seg.time_index_exists)) := by
  simp only [loadSegmentEntry, h1, h2]
  cases hC : (cfg.cache_indexes && (!d.seg.index_exists || d.seg.time_index_exists)) && !d.seg.rebuild_ok <;>
    (try simp_all) <;>
    cases hD : d.seg.load_err <;> (try simp_all) <;>
    cases hE : (if cfg.validate_checksum then d.seg.checksum_err else none) <;> (try simp_all) <;>
    cases hF : (if cfg.deduplication_enabled then d.seg.message_ids_err else none) <;> (try simp_all)
  all_goals (try rfl)

/-- For a log-file entry whose rebuild does not panic, the legacy timeindex
is deleted exactly when it exists (storage.rs line 132). -/
theorem loadSegmentEntry_deleted_tidx (cfg : Config) (d : PartitionDirEntry) (p : Partition)
    (h1 : d.extension_is_log = true) (h2 : d.is_directory = false)
    (h3 : d.seg.rebuild_ok = true) :
    (loadSegmentEntry cfg d p).info.deleted_time_index = d.seg.time_index_exists := by
  simp only [loadSegmentEntry, h1, h2, h3]
  cases hD : d.seg.load_err <;> (try simp_all) <;>
    cases hE : (if cfg.validate_checksum then d.seg.checksum_err else none) <;> (try simp_all) <;>
    cases hF : (if cfg.deduplication_enabled then d.seg.message_ids_err else none) <;> (try simp_all)
  all_goals (try rfl)

/-- When every entry has readable metadata, is a file and either has an
unparseable name or is fully readable, the consumer-offset loop returns the
sorted collection of the parseable entries. -/
theorem loadConsumerOffsetsLoop_ok (kind : ConsumerKind) :
    ∀ (entries : List OffsetDirEntry) (acc : List ConsumerOffset),
      (∀ e ∈ entries, e.meta_ok = true ∧ e.is_dir = false
        ∧ (parseU32 e.name = none
            ∨ (e.path_valid = true ∧ e.open_ok = true ∧ 8 ≤ e.content.length))) →
      loadConsumerOffsetsLoop kind entries acc
        = .ok (List.insertionSort coLE (acc ++ specCollectOffsets kind entries)) := by
  intro entries
  induction entries with
  | nil =>
    intro acc _
    simp [loadConsumerOffsetsLoop, specCollectOffsets]
  | cons e rest ih =>
    intro acc h
    obtain ⟨hm, hd, hrest⟩ := h e (by simp)
    have hr : ∀ x ∈ rest, x.meta_ok = true ∧ x.is_dir = false
        ∧ (parseU32 x.name = none
            ∨ (x.path_valid = true ∧ x.open_ok = true ∧ 8 ≤ x.content.length)) :=
      fun x hx => h x (by simp [hx])
    simp only [loadConsumerOffsetsLoop, hm, hd, Bool.not_true, Bool.not_false]
    rcases hp : parseU32 e.name with _ | cid
    · simp only [if_false]
      rw [ih acc hr]
      simp [specCollectOffsets, hp]
    · rcases hrest with hnone | ⟨hpv, hopen, hlen⟩
      · rw [hp] at hnone
        cases hnone
      · have hread : readU64LE e.content = some (leU64 e.content) := by
          unfold readU64LE
          rw [if_neg (by omega)]
        have hspec : specCollectOffsets kind (e :: rest)
            = ({ kind := kind, consumer_id := cid, offset := leU64 e.content,
                 path := e.path } : ConsumerOffset) :: specCollectOffsets kind rest := by
          simp [specCollectOffsets, hp, hread]
        have hrec := ih (acc ++
          [({ kind := kind, consumer_id := cid, offset := leU64 e.content,
              path := e.path } : ConsumerOffset)]) hr
        simp [hpv, hopen, hread, hspec, hrec, List.append_assoc]

/-- Claim C1: after `FilePartitionStorage::load` succeeds on a partition
directory whose segment files carry pairwise distinct start offsets, every
pair of consecutive segments (sorted ascending by start offset) satisfies
`end_offset + 1 = start_offset` of the later one: each non-terminal
`end_offset` was set to the next segment's start offset minus one. -/
theorem C1_loaded_segments_contiguous (cfg : Config) (entries : List PartitionDirEntry)
    (co_res : Option IggyError) (state_created_at : Nat) (p0 p' : Partition)
    (h0 : p0.segments = [])
    (hn : (entries.map (fun d => d.seg.start_offset)).Nodup)
    (hok : FilePartitionStorage.load cfg true entries co_res state_created_at p0 = .ok p') :
    List.Chain' (fun a b => a.end_offset + 1 = b.start_offset) p'.segments := by
  unfold FilePartitionStorage.load at hok
  simp only [Bool.not_true] at hok
  rw [if_neg (by simp)] at hok
  rcases hr : loadLoop cfg entries { p0 with created_at := state_created_at } with _ | ⟨e, q⟩ | q <;>
    rw [hr] at hok
  · simp at hok
  · simp at hok
  · obtain ⟨new, hseg, _, _, hsub, _, _⟩ :=
      loadLoop_ok_inv cfg entries _ q hr
    have hqseg : q.segments = new := by simpa [h0] using hseg
    rcases co_res with _ | e
    · simp only [] at hok
      cases hok
      have hsorted : (List.insertionSort segLE q.segments).Pairwise segLE :=
        List.sorted_insertionSort segLE q.segments
      have hperm : List.Perm (List.insertionSort segLE q.segments) q.segments :=
        List.perm_insertionSort segLE q.segments
      have hnodupq : (q.segments.map Segment.start_offset).Nodup := by
        rw [hqseg]
        exact List.Nodup.sublist hsub hn
      have hnodup : ((List.insertionSort segLE q.segments).map Segment.start_offset).Nodup :=
        ((hperm.map Segment.start_offset).nodup_iff).mpr hnodupq
      have hlt := pairwise_lt_of_sorted_nodup _ hsorted hnodup
      exact chain_fixEndOffsets _ hlt.chain'
    · simp at hok

/-- Witness for C1: two closed segments with start offsets 5 and 0. -/
theorem C1_witness :
    (([dirEntryClosed5, dirEntryClosed0].map (fun d => d.seg.start_offset)).Nodup)
    ∧ emptyPartition.segments = []
    ∧ List.Chain' (fun a b => a.end_offset + 1 = b.start_offset)
        (LoadResult.partOrEmpty
          (FilePartitionStorage.load cfgPlain true [dirEntryClosed5, dirEntryClosed0]
            none 7 emptyPartition)).segments :=
  ⟨by decide, rfl,
   C1_loaded_segments_contiguous cfgPlain [dirEntryClosed5, dirEntryClosed0] none 7
     emptyPartition _ rfl (by decide) rfl⟩

/-- Claim C2: during load, a segment's offset index is rebuilt if and only
if the index cache is enabled AND (the index file does not exist OR a legacy
timeindex file exists alongside it); in particular, when `cache_indexes` is
false no rebuild is triggered. -/
theorem C2_rebuild_condition (cfg : Config) (d : PartitionDirEntry) (p : Partition)
    (h1 : d.extension_is_log = true) (h2 : d.is_directory = false) :
    ((loadSegmentEntry cfg d p).info.rebuilt = true
      ↔ (cfg.cache_indexes = true
          ∧ (d.seg.index_exists = false ∨ d.seg.time_index_exists = true)))
    ∧ (cfg.cache_indexes = false → (loadSegmentEntry cfg d p).info.rebuilt = false) := by
  rw [loadSegmentEntry_rebuilt cfg d p h1 h2]
  cases cfg.cache_indexes <;> cases d.seg.index_exists <;> cases d.seg.time_index_exists <;>
    simp

/-- Witness for C2: cache enabled, index missing. -/
theorem C2_rebuild_condition_witness :
    dirEntryW2.extension_is_log = true ∧ dirEntryW2.is_directory = false
    ∧ (((loadSegmentEntry cfgCacheOn dirEntryW2 emptyPartition).info.rebuilt = true
        ↔ (cfgCacheOn.cache_indexes = true
            ∧ (dirEntryW2.seg.index_exists = false
                ∨ dirEntryW2.seg.time_index_exists = true)))
       ∧ (cfgCacheOn.cache_indexes = false →
            (loadSegmentEntry cfgCacheOn dirEntryW2 emptyPartition).info.rebuilt = false)) :=
  ⟨rfl, rfl, C2_rebuild_condition cfgCacheOn dirEntryW2 emptyPartition rfl rfl⟩

/-- Claim C3, counterexample: with the index cache enabled and both an
up-to-date index and a legacy timeindex present, the loader rebuilds
(regenerates) the index — `rebuilt = true` — rather than keeping the
existing index untouched; the legacy file is deleted. -/
theorem C3_counterexample :
    (loadSegmentEntry cfgCacheOn dirEntryBothIdx emptyPartition).info = ⟨true, true⟩ := rfl

/-- Claim C3, amended: when both an up-to-date index and a legacy timeindex
exist (and the rebuild succeeds), the legacy timeindex file is always
deleted, and the index is regenerated exactly when the index cache is
enabled — it is kept untouched only with `cache_indexes = false`. -/
theorem C3_amended_rebuild_despite_index (cfg : Config) (d : PartitionDirEntry) (p : Partition)
    (h1 : d.extension_is_log = true) (h2 : d.is_directory = false)
    (h3 : d.seg.index_exists = true) (h4 : d.seg.time_index_exists = true)
    (h5 : d.seg.rebuild_ok = true) :
    (loadSegmentEntry cfg d p).info.rebuilt = cfg.cache_indexes
    ∧ (loadSegmentEntry cfg d p).info.deleted_time_index = true := by
  constructor
  · rw [loadSegmentEntry_rebuilt cfg d p h1 h2, h3, h4]
    simp
  · rw [loadSegmentEntry_deleted_tidx cfg d p h1 h2 h5, h4]

/-- Witness for the amended C3: cache enabled, both files present. -/
theorem C3_amended_witness :
    dirEntryBothIdx.extension_is_log = true ∧ dirEntryBothIdx.is_directory = false
    ∧ dirEntryBothIdx.seg.index_exists = true
    ∧ dirEntryBothIdx.seg.time_index_exists = true
    ∧ dirEntryBothIdx.seg.rebuild_ok = true
    ∧ ((loadSegmentEntry cfgCacheOn dirEntryBothIdx emptyPartition).info.rebuilt
         = cfgCacheOn.cache_indexes
       ∧ (loadSegmentEntry cfgCacheOn dirEntryBothIdx emptyPartition).info.deleted_time_index
         = true) :=
  ⟨rfl, rfl, rfl, rfl, rfl,
   C3_amended_rebuild_despite_index cfgCacheOn dirEntryBothIdx emptyPartition
     rfl rfl rfl rfl rfl⟩

/-- Claim C4 (code bug, per the spec's own mandate of typed errors): when
rebuilding a segment's index fails during partition load, the code panics
at storage.rs lines 117-123 instead of returning a typed error: the model's
result is `panicked`, not a `failed` value carrying an error. -/
theorem C4_rebuild_failure_panics :
    FilePartitionStorage.load cfgCacheOn true [dirEntryNoIdxRebuildFails] none 0 emptyPartition
      = .panicked := rfl

/-- Claim C5, counterexample: a consumer-offset file whose name parses fine
but which cannot be opened makes `load_consumer_offsets` return the error
`CannotReadFile` — the entry is not skipped and enumeration stops. -/
theorem C5_counterexample :
    FilePartitionStorage.loadConsumerOffsets ConsumerKind.consumer true "offsets/consumer"
      [coEntryUnreadable] = .error .CannotReadFile := rfl

/-- Claim C5, amended: unparseable names and non-UTF-8 paths are skipped
(log-and-continue), but a per-entry failure to open or to read a
consumer-offset file aborts `load_consumer_offsets` with the typed error
`CannotReadFile`. -/
theorem C5_amended_unreadable_aborts (kind : ConsumerKind) (dir_path : String)
    (e : OffsetDirEntry) (rest : List OffsetDirEntry) (acc : List ConsumerOffset) (cid : Nat)
    (hm : e.meta_ok = true) (hd : e.is_dir = false)
    (hp : parseU32 e.name = some cid) (hpv : e.path_valid = true)
    (hfail : e.open_ok = false ∨ e.content.length < 8) :
    loadConsumerOffsetsLoop kind (e :: rest) acc = .error .CannotReadFile
    ∧ FilePartitionStorage.loadConsumerOffsets kind true dir_path (e :: rest)
        = .error .CannotReadFile := by
  have key : ∀ acc' : List ConsumerOffset,
      loadConsumerOffsetsLoop kind (e :: rest) acc' = .error .CannotReadFile := by
    intro acc'
    simp only [loadConsumerOffsetsLoop, hm, hd, hp, hpv, Bool.not_true, Bool.not_false]
    rcases hfail with ho | hl
    · simp [ho]
    · cases hoo : e.open_ok
      · simp
      · have hr0 : readU64LE e.content = none := by
          unfold readU64LE
          rw [if_pos hl]
        simp [hr0]
  refine ⟨key acc, ?_⟩
  unfold FilePartitionStorage.loadConsumerOffsets
  rw [if_neg (by simp)]
  exact key []

/-- Witness for the amended C5: one entry whose open fails. -/
theorem C5_amended_witness :
    coEntryUnreadable.meta_ok = true ∧ coEntryUnreadable.is_dir = false
    ∧ parseU32 coEntryUnreadable.name = some 1 ∧ coEntryUnreadable.path_valid = true
    ∧ (coEntryUnreadable.open_ok = false ∨ coEntryUnreadable.content.length < 8)
    ∧ (loadConsumerOffsetsLoop ConsumerKind.consumer [coEntryUnreadable] []
          = .error .CannotReadFile
       ∧ FilePartitionStorage.loadConsumerOffsets ConsumerKind.consumer true
            "offsets/consumer" [coEntryUnreadable] = .error .CannotReadFile) :=
  ⟨rfl, rfl, by decide, rfl, Or.inl rfl,
   C5_amended_unreadable_aborts ConsumerKind.consumer "offsets/consumer" coEntryUnreadable
     [] [] 1 rfl rfl (by decide) rfl (Or.inl rfl)⟩


/-- Claim C6: `load_consumer_offsets` skips every directory entry whose
filename does not parse as a `u32` without aborting, reads each remaining
file's first 8 bytes as a little-endian `u64`, and returns the collected
`ConsumerOffset` records sorted ascending by `consumer_id`. -/
theorem C6_offsets_collected_and_sorted (kind : ConsumerKind) (dir_path : String)
    (entries : List OffsetDirEntry)
    (h : ∀ e ∈ entries, e.meta_ok = true ∧ e.is_dir = false
        ∧ (parseU32 e.name = none
            ∨ (e.path_valid = true ∧ e.open_ok = true ∧ 8 ≤ e.content.length))) :
    FilePartitionStorage.loadConsumerOffsets kind true dir_path entries
      = .ok (List.insertionSort coLE (specCollectOffsets kind entries))
    ∧ (List.insertionSort coLE (specCollectOffsets kind entries)).Pairwise
        (fun a b => a.consumer_id ≤ b.consumer_id)
    ∧ List.Perm (List.insertionSort coLE (specCollectOffsets kind entries))
        (specCollectOffsets kind entries) := by
  refine ⟨?_, List.sorted_insertionSort coLE _, List.perm_insertionSort coLE _⟩
  unfold FilePartitionStorage.loadConsumerOffsets
  rw [if_neg (by simp)]
  simpa using loadConsumerOffsetsLoop_ok kind entries [] h

/-- Witness for C6: files named 7 and 3 plus one unparseable name. -/
theorem C6_witness :
    (∀ e ∈ [coEntryGood7, coEntryBadName, coEntryGood3],
        e.meta_ok = true ∧ e.is_dir = false
        ∧ (parseU32 e.name = none
            ∨ (e.path_valid = true ∧ e.open_ok = true ∧ 8 ≤ e.content.length)))
    ∧ (FilePartitionStorage.loadConsumerOffsets ConsumerKind.consumer true "offsets/consumer"
          [coEntryGood7, coEntryBadName, coEntryGood3]
        = .ok (List.insertionSort coLE
            (specCollectOffsets ConsumerKind.consumer
              [coEntryGood7, coEntryBadName, coEntryGood3]))
       ∧ (List.insertionSort coLE
            (specCollectOffsets ConsumerKind.consumer
              [coEntryGood7, coEntryBadName, coEntryGood3])).Pairwise
            (fun a b => a.consumer_id ≤ b.consumer_id)
       ∧ List.Perm (List.insertionSort coLE
            (specCollectOffsets ConsumerKind.consumer
              [coEntryGood7, coEntryBadName, coEntryGood3]))
            (specCollectOffsets ConsumerKind.consumer
              [coEntryGood7, coEntryBadName, coEntryGood3])) :=
  ⟨by decide,
   C6_offsets_collected_and_sorted ConsumerKind.consumer "offsets/consumer"
     [coEntryGood7, coEntryBadName, coEntryGood3] (by decide)⟩

/-- Claim C7, counterexample: a failure while removing the consumer-offsets
directory and a failure while removing the consumer-group-offsets directory
produce the *same* typed error `CannotDeletePartition(1, 2, 3)`, so the three
steps of `delete` do not each yield a distinct typed error. -/
theorem C7_counterexample :
    FilePartitionStorage.delete 1 2 3 "co" "cg" true false true true true
      = .error (.CannotDeletePartition 1 2 3)
    ∧ FilePartitionStorage.delete 1 2 3 "co" "cg" false true true false true
      = .error (.CannotDeletePartition 1 2 3) :=
  ⟨rfl, rfl⟩

/-- Claim C7, amended: the first two steps of `delete` (consumer offsets,
consumer-group offsets) both yield `CannotDeletePartition(partition_id,
topic_id, stream_id)` on failure — the same error, not distinct from each
other — while the third step yields `CannotDeletePartitionDirectory(
partition_id, stream_id, topic_id)`; each error names the identifier triple,
and when all steps succeed `delete` returns `Ok`. -/
theorem C7_amended_two_error_kinds (partition_id topic_id stream_id : Nat)
    (co_path g_path : String) (g_exists g_remove_ok dir_ok : Bool) :
    FilePartitionStorage.delete partition_id topic_id stream_id co_path g_path
        true false g_exists g_remove_ok dir_ok
      = .error (.CannotDeletePartition partition_id topic_id stream_id)
    ∧ FilePartitionStorage.delete partition_id topic_id stream_id co_path g_path
        false true true false dir_ok
      = .error (.CannotDeletePartition partition_id topic_id stream_id)
    ∧ FilePartitionStorage.delete partition_id topic_id stream_id co_path g_path
        false true false true false
      = .error (.CannotDeletePartitionDirectory partition_id stream_id topic_id)
    ∧ FilePartitionStorage.delete partition_id topic_id stream_id co_path g_path
        false true false true true
      = .ok () :=
  ⟨rfl, rfl, rfl, rfl⟩

/-- Claim C8: after a successful load that starts with the flag down,
`should_increment_offset` ends up raised exactly when some loaded segment
has `size_bytes > 0` (stated as a Boolean scan of the final segment list);
and an empty partition directory yields zero segments and a lowered flag. -/
theorem C8_should_increment_iff_some_bytes (cfg : Config) (entries : List PartitionDirEntry)
    (co_res : Option IggyError) (state_created_at : Nat) (p0 p' : Partition)
    (h0 : p0.segments = [])
    (h1 : p0.should_increment_offset = false)
    (hok : FilePartitionStorage.load cfg true entries co_res state_created_at p0 = .ok p') :
    (p'.should_increment_offset = p'.segments.any (fun s => decide (0 < s.size_bytes)))
    ∧ (entries = [] → p'.segments = [] ∧ p'.should_increment_offset = false) := by
  unfold FilePartitionStorage.load at hok
  simp only [Bool.not_true] at hok
  rw [if_neg (by simp)] at hok
  rcases hr : loadLoop cfg entries { p0 with created_at := state_created_at } with _ | ⟨e, q⟩ | q <;>
    rw [hr] at hok
  · simp at hok
  · simp at hok
  · obtain ⟨new, hseg, hflag, _, hsub, _, _⟩ :=
      loadLoop_ok_inv cfg entries _ q hr
    have hqseg : q.segments = new := by simpa [h0] using hseg
    have hqflag : q.should_increment_offset = new.any (fun s => decide (0 < s.size_bytes)) := by
      simpa [h1] using hflag
    rcases co_res with _ | e
    · simp only [] at hok
      cases hok
      constructor
      · show q.should_increment_offset = _
        have hmap : (updateLastSegment
              (fixEndOffsets (List.insertionSort segLE q.segments))).map Segment.size_bytes
            = (List.insertionSort segLE q.segments).map Segment.size_bytes := by
          rw [map_size_updateLastSegment, map_size_fixEndOffsets]
        have hperm : List.Perm ((List.insertionSort segLE q.segments).map Segment.size_bytes)
            (new.map Segment.size_bytes) := by
          rw [← hqseg]
          exact (List.perm_insertionSort segLE q.segments).map Segment.size_bytes
        rw [hqflag, any_pos_of_map_size, any_pos_of_map_size, hmap,
            any_eq_of_perm _ _ hperm]
      · intro hemp
        subst hemp
        have hnew : new = [] := by
          have := hsub
          simp only [List.map_nil] at this
          have hmapnil := List.sublist_nil.mp this
          exact List.map_eq_nil.mp hmapnil
        subst hnew
        constructor
        · show updateLastSegment (fixEndOffsets (List.insertionSort segLE q.segments)) = []
          rw [hqseg]
          rfl
        · show q.should_increment_offset = false
          simpa using hqflag
    · simp at hok

/-- Witness for C8: an empty partition directory. -/
theorem C8_witness :
    emptyPartition.segments = []
    ∧ emptyPartition.should_increment_offset = false
    ∧ (((LoadResult.partOrEmpty
          (FilePartitionStorage.load cfgPlain true [] none 3 emptyPartition)).should_increment_offset
        = (LoadResult.partOrEmpty
            (FilePartitionStorage.load cfgPlain true [] none 3
              emptyPartition)).segments.any (fun s => decide (0 < s.size_bytes)))
       ∧ (([] : List PartitionDirEntry) = [] →
            (LoadResult.partOrEmpty
              (FilePartitionStorage.load cfgPlain true [] none 3 emptyPartition)).segments = []
            ∧ (LoadResult.partOrEmpty
                (FilePartitionStorage.load cfgPlain true [] none 3
                  emptyPartition)).should_increment_offset = false)) :=
  ⟨rfl, rfl,
   C8_should_increment_iff_some_bytes cfgPlain [] none 3 emptyPartition _ rfl rfl rfl⟩

/-- Claim C9: `delete_consumer_offsets` returns `Ok` when the directory does
not exist and `delete_consumer_offset` returns `Ok` when the file does not
exist; when the target exists and removal fails they return
`CannotDeleteConsumerOffsetsDirectory` and `CannotDeleteConsumerOffsetFile`
respectively. -/
theorem C9_absent_targets_ok (path : String) (remove_ok : Bool) :
    FilePartitionStorage.deleteConsumerOffsets path false remove_ok = .ok ()
    ∧ FilePartitionStorage.deleteConsumerOffsets path true false
        = .error (.CannotDeleteConsumerOffsetsDirectory path)
    ∧ FilePartitionStorage.deleteConsumerOffsets path true true = .ok ()
    ∧ FilePartitionStorage.deleteConsumerOffset path false remove_ok = .ok ()
    ∧ FilePartitionStorage.deleteConsumerOffset path true false
        = .error (.CannotDeleteConsumerOffsetFile path)
    ∧ FilePartitionStorage.deleteConsumerOffset path true true = .ok () :=
  ⟨rfl, rfl, rfl, rfl, rfl, rfl⟩

/-- Claim C10: `FilePartitionStorage::load` is not atomic on error — when a
segment entry fails after earlier entries loaded, load returns the error
while the earlier segments remain appended to `partition.segments` and the
parent stream's segment counter keeps its increments. -/
theorem C10_load_failure_keeps_earlier_segments (cfg : Config)
    (good : List PartitionDirEntry) (bad : PartitionDirEntry)
    (rest : List PartitionDirEntry) (co_res : Option IggyError)
    (state_created_at : Nat) (p0 : Partition) (err : IggyError)
    (hg : ∀ d ∈ good, classifyEntry cfg d = .loaded)
    (hb : classifyEntry cfg bad = .failed err) :
    (FilePartitionStorage.load cfg true (good ++ bad :: rest) co_res state_created_at p0).errorOf
        = some err
    ∧ (FilePartitionStorage.load cfg true (good ++ bad :: rest) co_res state_created_at
          p0).partOrEmpty.segments
        = p0.segments ++ good.map (fun d => segOfEntry cfg d.seg)
    ∧ (FilePartitionStorage.load cfg true (good ++ bad :: rest) co_res state_created_at
          p0).partOrEmpty.segments_count_of_parent_stream
        = p0.segments_count_of_parent_stream + good.length := by
  obtain ⟨q, hq1, hq2, hq3⟩ :=
    loadLoop_fail cfg good bad rest { p0 with created_at := state_created_at } err hg hb
  unfold FilePartitionStorage.load
  simp only [Bool.not_true]
  rw [if_neg (by simp), hq1]
  exact ⟨rfl, by simpa using hq2, by simpa using hq3⟩

/-- Witness for C10: one good segment followed by one whose
`Segment::load` fails. -/
theorem C10_witness :
    (∀ d ∈ [dirEntryClosed0], classifyEntry cfgPlain d = .loaded)
    ∧ classifyEntry cfgPlain dirEntryLoadFails = .failed .CannotLoadSegment
    ∧ ((FilePartitionStorage.load cfgPlain true
          ([dirEntryClosed0] ++ dirEntryLoadFails :: []) none 0 emptyPartition).errorOf
        = some .CannotLoadSegment
       ∧ (FilePartitionStorage.load cfgPlain true
            ([dirEntryClosed0] ++ dirEntryLoadFails :: []) none 0
            emptyPartition).partOrEmpty.segments
          = emptyPartition.segments
              ++ [dirEntryClosed0].map (fun d => segOfEntry cfgPlain d.seg)
       ∧ (FilePartitionStorage.load cfgPlain true
            ([dirEntryClosed0] ++ dirEntryLoadFails :: []) none 0
            emptyPartition).partOrEmpty.segments_count_of_parent_stream
          = emptyPartition.segments_count_of_parent_stream + [dirEntryClosed0].length) :=
  ⟨by decide, by decide,
   C10_load_failure_keeps_earlier_segments cfgPlain [dirEntryClosed0] dirEntryLoadFails []
     none 0 emptyPartition .CannotLoadSegment (by decide) (by decide)⟩
